import Mathlib

/-!
Verification development for the agent loop in `agent_fun.py`.

The embedding models:
  * Python JSON values (`Json`) and Python's `json.loads` (`json_loads`),
    including its acceptance of `NaN`/`Infinity`/`-Infinity`, strict
    rejection of raw control characters in strings, and last-wins
    duplicate object keys;
  * the layered parse-and-repair function `llm_json` (lines 40-84 of the
    source), split into the completion call (`llm_json`) and the pure
    fallback chain on the completion text (`parseSteps`);
  * the tool catalog construction `tool_index` (line 98), with Python
    dict-comprehension semantics;
  * the per-turn dispatch loop of `main` (lines 128-156), as a fuel-indexed
    step function over an explicit history/printed-output/dispatch-count
    state.

Numeric JSON values are kept as their lexemes (`Json.num`): no claim
depends on numeric arithmetic, only on which texts decode successfully.
Lone surrogates in `\u` escapes (which Python accepts into its `str`
type but Lean's `Char` cannot represent) are mapped to U+FFFD; this
preserves the success/failure boundary of the decoder.
-/

/-- A Python JSON value, as produced by `json.loads`.  Numbers are kept as
their source lexemes since no claim depends on numeric semantics. -/
inductive Json where
  | null : Json
  | bool (b : Bool) : Json
  | num (lex : String) : Json
  | str (s : String) : Json
  | arr (items : List Json) : Json
  | obj (fields : List (String × Json)) : Json

/-- Lookup in an association list with Python-dict key semantics
(first matching key; keys are unique by construction). -/
def dictGet? {α : Type} : List (String × α) → String → Option α
  | [], _ => none
  | (k, v) :: rest, n => if k = n then some v else dictGet? rest n

/-- Python dict insertion: updating an existing key keeps its position,
a fresh key is appended at the end. -/
def dictInsert {α : Type} : List (String × α) → String → α → List (String × α)
  | [], k, v => [(k, v)]
  | (k', v') :: rest, k, v =>
    if k' = k then (k', v) :: rest else (k', v') :: dictInsert rest k v

/-- JSON whitespace accepted between tokens by `json.loads`. -/
def jsonWs (c : Char) : Bool :=
  c = ' ' || c = '\t' || c = '\n' || c = '\r'

/-- Skip JSON whitespace. -/
def skipWs : List Char → List Char
  | [] => []
  | c :: cs => if jsonWs c then skipWs cs else c :: cs

/-- Value of a hexadecimal digit. -/
def hexVal (c : Char) : Option Nat :=
  if '0' ≤ c ∧ c ≤ '9' then some (c.toNat - 48)
  else if 'a' ≤ c ∧ c ≤ 'f' then some (c.toNat - 87)
  else if 'A' ≤ c ∧ c ≤ 'F' then some (c.toNat - 55)
  else none

/-- Read exactly four hex digits. -/
def hex4 : List Char → Option (Nat × List Char)
  | a :: b :: c :: d :: rest => do
    let x ← hexVal a
    let y ← hexVal b
    let z ← hexVal c
    let w ← hexVal d
    some ((((x * 16 + y) * 16 + z) * 16 + w), rest)
  | _ => none

/-- Scalar for a `\uXXXX` escape.  Python's decoder accepts lone
surrogates into its string type; Lean cannot represent them, so they
are mapped to U+FFFD (the decoder still succeeds, as in Python). -/
def jsonUChar (n : Nat) : Char :=
  if 0xd800 ≤ n ∧ n ≤ 0xdfff then Char.ofNat 0xfffd else Char.ofNat n

/-- Body of a JSON string literal, after the opening quote.  Mirrors
Python's strict-mode `scanstring`: named escapes, `\uXXXX` with
surrogate-pair combination, and rejection of raw control characters. -/
def parseStrBody : Nat → List Char → List Char → Option (String × List Char)
  | 0, _, _ => none
  | _ + 1, [], _ => none
  | fuel + 1, c :: cs, acc =>
    if c = '"' then some (String.mk acc.reverse, cs)
    else if c = '\\' then
      match cs with
      | [] => none
      | e :: cs' =>
        if e = '"' then parseStrBody fuel cs' ('"' :: acc)
        else if e = '\\' then parseStrBody fuel cs' ('\\' :: acc)
        else if e = '/' then parseStrBody fuel cs' ('/' :: acc)
        else if e = 'b' then parseStrBody fuel cs' ('\x08' :: acc)
        else if e = 'f' then parseStrBody fuel cs' ('\x0c' :: acc)
        else if e = 'n' then parseStrBody fuel cs' ('\n' :: acc)
        else if e = 'r' then parseStrBody fuel cs' ('\r' :: acc)
        else if e = 't' then parseStrBody fuel cs' ('\t' :: acc)
        else if e = 'u' then
          match hex4 cs' with
          | none => none
          | some (n, rest) =>
            if 0xd800 ≤ n ∧ n ≤ 0xdbff then
              match rest with
              | '\\' :: 'u' :: rest2 =>
                match hex4 rest2 with
                | some (m, rest3) =>
                  if 0xdc00 ≤ m ∧ m ≤ 0xdfff then
                    parseStrBody fuel rest3
                      (Char.ofNat (0x10000 + (n - 0xd800) * 0x400 + (m - 0xdc00)) :: acc)
                  else parseStrBody fuel rest (jsonUChar n :: acc)
                | none => parseStrBody fuel rest (jsonUChar n :: acc)
              | _ => parseStrBody fuel rest (jsonUChar n :: acc)
            else parseStrBody fuel rest (jsonUChar n :: acc)
        else none
    else if c.toNat < 0x20 then none
    else parseStrBody fuel cs (c :: acc)

/-- JSON integer part: `0` or a nonzero digit followed by digits. -/
def lexInt : List Char → Option (List Char × List Char)
  | [] => none
  | c :: rest =>
    if c = '0' then some (['0'], rest)
    else if c.isDigit then
      match List.span Char.isDigit rest with
      | (ds, r) => some (c :: ds, r)
    else none

/-- Optional JSON fraction part: `.` followed by at least one digit. -/
def lexFrac (cs : List Char) : List Char × List Char :=
  match cs with
  | '.' :: rest =>
    match List.span Char.isDigit rest with
    | ([], _) => ([], cs)
    | (ds, r) => ('.' :: ds, r)
  | _ => ([], cs)

/-- Optional JSON exponent part: `e`/`E`, optional sign, at least one digit. -/
def lexExp (cs : List Char) : List Char × List Char :=
  match cs with
  | c :: rest =>
    if c = 'e' ∨ c = 'E' then
      match rest with
      | s :: rest2 =>
        if s = '+' ∨ s = '-' then
          match List.span Char.isDigit rest2 with
          | ([], _) => ([], cs)
          | (ds, r) => (c :: s :: ds, r)
        else
          match List.span Char.isDigit rest with
          | ([], _) => ([], cs)
          | (ds, r) => (c :: ds, r)
      | [] => ([], cs)
    else ([], cs)
  | [] => ([], cs)

/-- Lex a JSON number (the `NUMBER_RE` of Python's scanner), returning
its lexeme. -/
def lexNumber (cs : List Char) : Option (String × List Char) :=
  match cs with
  | '-' :: rest =>
    match lexInt rest with
    | some (ip, r1) =>
      let (fp, r2) := lexFrac r1
      let (ep, r3) := lexExp r2
      some (String.mk ('-' :: (ip ++ fp ++ ep)), r3)
    | none => none
  | _ =>
    match lexInt cs with
    | some (ip, r1) =>
      let (fp, r2) := lexFrac r1
      let (ep, r3) := lexExp r2
      some (String.mk (ip ++ fp ++ ep), r3)
    | none => none

mutual

/-- Parse one JSON value.  Fuel decreases at each nesting level; the
top-level call supplies more fuel than the input length, which every
nested value strictly consumes, so fuel never runs out on real inputs. -/
def parseVal : Nat → List Char → Option (Json × List Char)
  | 0, _ => none
  | fuel + 1, cs =>
    match cs with
    | [] => none
    | '"' :: rest =>
      match parseStrBody (rest.length + 1) rest [] with
      | some (s, r) => some (Json.str s, r)
      | none => none
    | '{' :: rest => parseObjBody fuel (skipWs rest) []
    | '[' :: rest => parseArrBody fuel (skipWs rest) []
    | 'n' :: 'u' :: 'l' :: 'l' :: rest => some (Json.null, rest)
    | 't' :: 'r' :: 'u' :: 'e' :: rest => some (Json.bool true, rest)
    | 'f' :: 'a' :: 'l' :: 's' :: 'e' :: rest => some (Json.bool false, rest)
    | 'N' :: 'a' :: 'N' :: rest => some (Json.num ("nan"), rest)
    | 'I' :: 'n' :: 'f' :: 'i' :: 'n' :: 'i' :: 't' :: 'y' :: rest =>
      some (Json.num ("inf"), rest)
    | '-' :: 'I' :: 'n' :: 'f' :: 'i' :: 'n' :: 'i' :: 't' :: 'y' :: rest =>
      some (Json.num ("-inf"), rest)
    | _ =>
      match lexNumber cs with
      | some (s, r) => some (Json.num s, r)
      | none => none

/-- Members of a JSON object: positioned at a key string, or at `}` only
when no member has been read yet.  Duplicate keys are resolved last-wins,
as in Python dicts. -/
def parseObjBody : Nat → List Char → List (String × Json) → Option (Json × List Char)
  | 0, _, _ => none
  | fuel + 1, cs, acc =>
    match cs with
    | '}' :: rest => if acc.isEmpty then some (Json.obj [], rest) else none
    | '"' :: rest =>
      match parseStrBody (rest.length + 1) rest [] with
      | none => none
      | some (k, r1) =>
        match skipWs r1 with
        | ':' :: r2 =>
          match parseVal fuel (skipWs r2) with
          | none => none
          | some (v, r3) =>
            match skipWs r3 with
            | ',' :: r4 => parseObjBody fuel (skipWs r4) (dictInsert acc k v)
            | '}' :: r4 => some (Json.obj (dictInsert acc k v), r4)
            | _ => none
        | _ => none
    | _ => none

/-- Elements of a JSON array: positioned at a value, or at `]` only when
no element has been read yet. -/
def parseArrBody : Nat → List Char → List Json → Option (Json × List Char)
  | 0, _, _ => none
  | fuel + 1, cs, acc =>
    match cs with
    | ']' :: rest => if acc.isEmpty then some (Json.arr [], rest) else none
    | _ =>
      match parseVal fuel cs with
      | none => none
      | some (v, r1) =>
        match skipWs r1 with
        | ',' :: r2 => parseArrBody fuel (skipWs r2) (acc ++ [v])
        | ']' :: r2 => some (Json.arr (acc ++ [v]), r2)
        | _ => none

end

/-- Model of Python's `json.loads` on `str` input: one value, surrounded
only by whitespace; anything left over is the `Extra data` error. -/
def json_loads (s : String) : Option Json :=
  let cs := skipWs s.data
  match parseVal (cs.length + 1) cs with
  | some (j, rest) => if (skipWs rest).isEmpty then some j else none
  | none => none

/-- The whitespace set stripped by Python's `str.strip()` (the Unicode
whitespace characters of `str.isspace`). -/
def pyWs (c : Char) : Bool :=
  let n := c.toNat
  n = 0x20 || (0x9 ≤ n && n ≤ 0xd) || (0x1c ≤ n && n ≤ 0x1f) ||
  n = 0x85 || n = 0xa0 || n = 0x1680 || (0x2000 ≤ n && n ≤ 0x200a) ||
  n = 0x2028 || n = 0x2029 || n = 0x202f || n = 0x205f || n = 0x3000

/-- Python's `str.strip()`. -/
def pyStrip (s : String) : String :=
  String.mk (((s.data.dropWhile pyWs).reverse.dropWhile pyWs).reverse)

/-- `needle.isPrefixOf hay` on character lists, decidably. -/
def listStarts : List Char → List Char → Bool
  | [], _ => true
  | _ :: _, [] => false
  | a :: as, b :: bs => a = b && listStarts as bs

/-- Substring containment, as in Python's `needle in hay`. -/
def listHasInfix (needle : List Char) : List Char → Bool
  | [] => listStarts needle []
  | c :: rest => listStarts needle (c :: rest) || listHasInfix needle rest

/-- Python's `needle in hay` for strings. -/
def strContains (hay needle : String) : Bool :=
  listHasInfix needle.data hay.data

/-- Python's `txt.startswith("\x7b")`. -/
def startsWithBrace (s : String) : Bool :=
  match s.data with
  | '{' :: _ => true
  | _ => false

/-- Python's `txt.count("\x7b")`. -/
def countBracesAux : List Char → Nat
  | [] => 0
  | c :: cs => (if c = '{' then 1 else 0) + countBracesAux cs

/-- Number of `\x7b` characters in a string. -/
def countBraces (s : String) : Nat := countBracesAux s.data

/-- The brace-depth scan of source lines 56-65: increment on `\x7b`,
decrement on `\x7d`, return the span when depth reaches 0. -/
def scanBalanced : List Char → Nat → List Char → Option String
  | [], _, _ => none
  | c :: cs, depth, acc =>
    if c = '{' then scanBalanced cs (depth + 1) (c :: acc)
    else if c = '}' then
      if depth = 1 then some (String.mk (c :: acc).reverse)
      else scanBalanced cs (depth - 1) (c :: acc)
    else scanBalanced cs depth (c :: acc)

/-- First syntactically balanced `\x7b...\x7d` span, scanning from the
first `\x7b` (source lines 55-65). -/
def firstBalanced (s : String) : Option String :=
  scanBalanced (s.data.dropWhile (fun c => !(c = '{' : Bool))) 0 []

/-- The `\x7b"action":"final","answer":txt\x7d` wrap used as the
plain-text and last-resort results (source lines 50 and 84). -/
def finalWrapJson (t : String) : Json :=
  Json.obj [("action", Json.str ("final")), ("answer", Json.str t)]

/-- Result of the parse portion of `llm_json`, together with the number
of repair completion calls made (0 or 1). -/
structure ParseOut where
  result : Json
  repairCalls : Nat

/-- First-object extraction (source lines 52-67): only attempted when the
text holds more than one `\x7b`; the decode of the extracted span may
itself fail, which the source catches and ignores. -/
def extractFirst (txt : String) : Option Json :=
  if countBraces txt > 1 then (firstBalanced txt).bind json_loads else none

/-- Model-assisted repair and last resort (source lines 69-84): one more
completion call whose stripped output is decoded; any failure falls back
to wrapping the original text. -/
def repairStep (repair : String → Except String String) (txt : String) : ParseOut :=
  match repair txt with
  | Except.ok fixed =>
    match json_loads (pyStrip fixed) with
    | some j => ⟨j, 1⟩
    | none => ⟨finalWrapJson txt, 1⟩
  | Except.error _ => ⟨finalWrapJson txt, 1⟩

/-- The fallback chain of `llm_json` (source lines 44-84), applied to the
already-stripped completion text `txt`.  `repair` models the second
`chat` call of lines 76-79 (it may fail, which the source catches). -/
def parseSteps (repair : String → Except String String) (txt : String) : ParseOut :=
  match json_loads txt with
  | some j => ⟨j, 0⟩
  | none =>
    if !startsWithBrace txt && !strContains txt ("action") then
      ⟨finalWrapJson txt, 0⟩
    else
      match extractFirst txt with
      | some j => ⟨j, 0⟩
      | none => repairStep repair txt

/-- The parse portion of `llm_json` applied to the raw completion text:
line 42 strips it, then the fallback chain runs. -/
def parseLLM (repair : String → Except String String) (content : String) : ParseOut :=
  parseSteps repair (pyStrip content)

/-- A conversation message (`\x7brole, content\x7d`).  The source appends
the final-answer value itself as `content`; for non-string values the
model stores its `str()` rendering (no claim touches that corner). -/
structure Msg where
  role : String
  content : String
deriving DecidableEq

/-- `llm_json` of source lines 40-84: the completion call (line 41, not
guarded by any handler, so its failure propagates) followed by the pure
fallback chain. -/
def llm_json (completer : List Msg → Except String String)
    (repair : String → Except String String) (messages : List Msg) :
    Except String ParseOut :=
  match completer messages with
  | Except.ok content => Except.ok (parseLLM repair content)
  | Except.error e => Except.error e

/-- A discovered tool descriptor (only the fields the claims need). -/
structure ToolDesc where
  name : String
  description : String
deriving DecidableEq

/-- Source line 98: `tool_index = \x7bt.name: t for t in tools\x7d` — a
Python dict comprehension, i.e. repeated dict insertion. -/
def tool_index (ts : List ToolDesc) : List (String × ToolDesc) :=
  ts.foldl (fun d t => dictInsert d t.name t) []

/-- The last descriptor in the list bearing a given name (specification
device for the last-wins behaviour of dict comprehensions). -/
def lastNamed (n : String) : List ToolDesc → Option ToolDesc
  | [] => none
  | t :: rest => (lastNamed n rest).or (if t.name = n then some t else none)

/-- Python `decision.get(key)` on a decoded JSON object: the value, or
`None` when the key is absent. -/
def pyGet (kvs : List (String × Json)) (k : String) : Json :=
  match dictGet? kvs k with
  | some v => v
  | none => Json.null

/-- Python `decision.get(key, default)`. -/
def pyGetD (kvs : List (String × Json)) (k : String) (dflt : Json) : Json :=
  match dictGet? kvs k with
  | some v => v
  | none => dflt

/-- Whether a Python value equals the string `"final"`
(line 135: `decision.get("action") == "final"`). -/
def isFinalTag : Json → Bool
  | Json.str s => s = "final"
  | _ => false

/-- Comma-separated join, used by the `str()` rendering of containers. -/
def joinStr : List String → String
  | [] => ""
  | [x] => x
  | x :: rest => x ++ ", " ++ joinStr rest

mutual

/-- Python `repr()` of a JSON value (string escaping inside `repr` is
approximated; no claim depends on it). -/
def pyRepr : Json → String
  | Json.null => "None"
  | Json.bool true => "True"
  | Json.bool false => "False"
  | Json.num lex => lex
  | Json.str s => "\x27" ++ s ++ "\x27"
  | Json.arr items => "[" ++ joinStr (pyReprList items) ++ "]"
  | Json.obj fields => "\x7b" ++ joinStr (pyReprFields fields) ++ "\x7d"

/-- `repr()` of the elements of a list. -/
def pyReprList : List Json → List String
  | [] => []
  | j :: rest => pyRepr j :: pyReprList rest

/-- `repr()` of the members of a dict. -/
def pyReprFields : List (String × Json) → List String
  | [] => []
  | (k, v) :: rest => ("\x27" ++ k ++ "\x27: " ++ pyRepr v) :: pyReprFields rest

end

/-- Python `str()` of a JSON value, as used by the f-strings of `main`. -/
def pyStr : Json → String
  | Json.str s => s
  | j => pyRepr j

/-- What one decoded decision makes the loop do (source lines 135-146):
a non-dict value crashes at `.get` (AttributeError); `action == "final"`
selects the final-answer branch with `answer` defaulting to `""`;
anything else is a tool call with `args` defaulting to `\x7b\x7d`. -/
inductive Decision where
  | crash : Decision
  | finalA (answer : Json) : Decision
  | toolA (tname args : Json) : Decision

/-- Classify a decoded decision per source lines 135-142. -/
def classify : Json → Decision
  | Json.obj kvs =>
    if isFinalTag (pyGet kvs ("action")) then
      Decision.finalA (pyGetD kvs ("answer") (Json.str ("")))
    else
      Decision.toolA (pyGet kvs ("action")) (pyGetD kvs ("args") (Json.obj []))
  | _ => Decision.crash

/-- External collaborators of one turn: the completion backend for the
main call (line 41) and the repair call (lines 76-79), and the tool
provider (line 150).  Each may fail. -/
structure Ctx where
  completer : List Msg → Except String String
  repair : String → Except String String
  toolExec : String → Json → Except String String

/-- Terminal state of one turn of the inner `for` loop. -/
inductive Outcome where
  | finalAnswer (s : String) : Outcome
  | exhausted : Outcome
  | completionError (e : String) : Outcome
  | crashed : Outcome
deriving DecidableEq

/-- Observable result of a turn: terminal outcome, conversation history,
console lines printed, and number of tool dispatch attempts. -/
structure LoopRes where
  outcome : Outcome
  history : List Msg
  printed : List String
  dispatches : Nat
deriving DecidableEq

/-- Effect of one iteration of the `for` loop: halt the turn (with an
optional appended message and printed lines), or append one message and
continue, possibly having dispatched a tool call. -/
inductive StepRes where
  | halt (o : Outcome) (append : Option Msg) (prints : List String) : StepRes
  | cont (msg : Msg) (prints : List String) (dispatched : Bool) : StepRes

/-- One iteration of the `for` loop of `main` (source lines 128-156),
given the current history. -/
def stepOf (ctx : Ctx) (cat : List (String × ToolDesc)) (h : List Msg) : StepRes :=
  match ctx.completer h with
  | Except.error e =>
    StepRes.halt (Outcome.completionError e) none
      ["[ERROR] Failed to get valid JSON from LLM: " ++ e]
  | Except.ok raw =>
    match classify (parseLLM ctx.repair raw).result with
    | Decision.crash => StepRes.halt Outcome.crashed none []
    | Decision.finalA ans =>
      StepRes.halt (Outcome.finalAnswer (pyStr ans))
        (some ⟨"assistant", pyStr ans⟩) ["Agent: " ++ pyStr ans]
    | Decision.toolA tname args =>
      match tname with
      | Json.str s =>
        match dictGet? cat s with
        | some _ =>
          match ctx.toolExec s args with
          | Except.ok payload =>
            StepRes.cont ⟨"assistant", "[tool:" ++ s ++ "] " ++ payload⟩ [] true
          | Except.error e =>
            StepRes.cont ⟨"assistant", "[error] Tool call failed: " ++ e⟩
              ["[ERROR] Tool call failed: " ++ e] true
        | none =>
          StepRes.cont ⟨"assistant", "(unknown tool " ++ s ++ ")"⟩
            ["[ERROR] Unknown tool: " ++ s] false
      | Json.arr _ =>
        StepRes.halt Outcome.crashed none []
      | Json.obj _ =>
        StepRes.halt Outcome.crashed none []
      | other =>
        StepRes.cont ⟨"assistant", "(unknown tool " ++ pyStr other ++ ")"⟩
          ["[ERROR] Unknown tool: " ++ pyStr other] false

/-- The `for iteration in range(...)` loop of `main`, with fuel counting
the remaining iterations; falling off the end of the loop is the
exhausted-budget outcome.  A list or dict tool name crashes at the
unhashable `in` test, as in Python. -/
def agentLoop (ctx : Ctx) (cat : List (String × ToolDesc)) :
    Nat → List Msg → List String → Nat → LoopRes
  | 0, h, p, d => ⟨Outcome.exhausted, h, p, d⟩
  | n + 1, h, p, d =>
    match stepOf ctx cat h with
    | StepRes.halt o m pr => ⟨o, h ++ m.toList, p ++ pr, d⟩
    | StepRes.cont m pr disp =>
      agentLoop ctx cat n (h ++ [m]) (p ++ pr) (d + (if disp then 1 else 0))

/-- The iteration cap of source line 128. -/
def maxIterations : Nat := 6

/-- One user turn (source lines 126-156): append the user message, then
run the bounded decision/dispatch loop. -/
def runTurn (ctx : Ctx) (cat : List (String × ToolDesc))
    (h0 : List Msg) (user : String) : LoopRes :=
  agentLoop ctx cat maxIterations (h0 ++ [⟨"user", user⟩]) [] 0

/-- Modelled from the spec: the well-formed Action shapes of the data
model in section 3 — `ToolCall\x7bname: string, args: mapping\x7d` or
`FinalAnswer\x7btext: string\x7d` — as a predicate on decoded values.
Used to compare the spec's contract with what the source returns. -/
def isWellFormedAction : Json → Bool
  | Json.obj kvs =>
    match dictGet? kvs ("action") with
    | some (Json.str a) =>
      if a = "final" then
        match dictGet? kvs ("answer") with
        | some (Json.str _) => true
        | _ => false
      else
        match dictGet? kvs ("args") with
        | some (Json.obj _) => true
        | none => true
        | some _ => false
    | _ => false
  | _ => false

/-- A repair completer whose backend is unavailable (every result is
caught by the source's handlers, so it exercises the worst case). -/
def stubRepair : String → Except String String :=
  fun _ => Except.error ("backend unavailable")

/-- `dictGet?` after a `dictInsert`: the inserted key wins, other keys
are unchanged. -/
lemma dictGet_dictInsert {α : Type} (d : List (String × α)) (k : String) (v : α)
    (n : String) :
    dictGet? (dictInsert d k v) n = if k = n then some v else dictGet? d n := by
  induction d with
  | nil => simp [dictInsert, dictGet?]
  | cons kv rest ih =>
    obtain ⟨k', v'⟩ := kv
    by_cases hk : k' = k
    · subst hk
      by_cases hn : k' = n <;> simp [dictInsert, dictGet?, hn]
    · by_cases hn : k' = n
      · subst hn
        have hkn : ¬(k = k') := fun hh => hk hh.symm
        simp [dictInsert, dictGet?, hk, hkn]
      · simp [dictInsert, dictGet?, hk, hn, ih]

/-- Folding dict insertions over descriptors: lookup finds the last
descriptor with the name, else whatever the accumulator held. -/
lemma tool_index_go (ts : List ToolDesc) (d : List (String × ToolDesc)) (n : String) :
    dictGet? (ts.foldl (fun acc t => dictInsert acc t.name t) d) n =
      (lastNamed n ts).or (dictGet? d n) := by
  induction ts generalizing d with
  | nil => cases hd : dictGet? d n <;> simp [lastNamed, Option.or, hd]
  | cons t rest ih =>
    simp only [List.foldl_cons, lastNamed]
    rw [ih, dictGet_dictInsert]
    cases hl : lastNamed n rest
    · by_cases ht : t.name = n <;> simp [Option.or, ht]
    · simp [Option.or]

/-- C2 (amended): building the catalog never fails; `tool_index` maps each
name to the LAST descriptor bearing it (later duplicates silently
overwrite earlier ones), so with pairwise-distinct names every descriptor
is retrievable under its own name. -/
theorem c2_catalog_last_wins (ts : List ToolDesc) (n : String) :
    dictGet? (tool_index ts) n = lastNamed n ts := by
  show dictGet? (ts.foldl (fun acc t => dictInsert acc t.name t) []) n = lastNamed n ts
  rw [tool_index_go ts [] n]
  cases lastNamed n ts <;> rfl

/-- C2 counterexample: two descriptors sharing the name `a` do NOT fail
with any `DuplicateToolError` — the build succeeds and yields a catalog
in which the second descriptor has silently replaced the first. -/
theorem c2_counterexample :
    tool_index [⟨"a", "first"⟩, ⟨"a", "second"⟩] = [("a", ⟨"a", "second"⟩)] ∧
    dictGet? (tool_index [⟨"a", "first"⟩, ⟨"a", "second"⟩]) ("a") =
      some ⟨"a", "second"⟩ ∧
    (⟨"a", "second"⟩ : ToolDesc) ≠ ⟨"a", "first"⟩ :=
  ⟨rfl, rfl, by decide⟩

/-- The repair step either wraps the original text or returns the decode
of a successful repair completion. -/
lemma repairStep_shape (repair : String → Except String String) (txt : String) :
    (repairStep repair txt).result = finalWrapJson txt ∨
    ∃ r, repair txt = Except.ok r ∧
        json_loads (pyStrip r) = some (repairStep repair txt).result := by
  unfold repairStep
  split
  next fixed hr =>
    split
    next j2 hjf => exact Or.inr ⟨fixed, hr, hjf⟩
    next hjf => exact Or.inl rfl
  next e hr => exact Or.inl rfl

/-- C1 (amended): the parse chain is total — for every completion text and
every behaviour of the repair completer (including failure) it returns a
value, which is either the decoded JSON of the whole stripped text, the
decoded JSON of the first balanced brace span, the decoded JSON of the
repair output, or the final-answer wrap of the stripped text.  (The raw
decoded value is returned unchecked, so it need not be a well-formed
Action, and the worst-case wrap holds the stripped text, not the raw
text.) -/
theorem c1_parse_total_shape (repair : String → Except String String) (s : String) :
    (parseLLM repair s).result = finalWrapJson (pyStrip s) ∨
    json_loads (pyStrip s) = some (parseLLM repair s).result ∨
    (∃ fb, firstBalanced (pyStrip s) = some fb ∧
        json_loads fb = some (parseLLM repair s).result) ∨
    (∃ r, repair (pyStrip s) = Except.ok r ∧
        json_loads (pyStrip r) = some (parseLLM repair s).result) := by
  have main : ∀ txt : String,
      (parseSteps repair txt).result = finalWrapJson txt ∨
      json_loads txt = some (parseSteps repair txt).result ∨
      (∃ fb, firstBalanced txt = some fb ∧
          json_loads fb = some (parseSteps repair txt).result) ∨
      (∃ r, repair txt = Except.ok r ∧
          json_loads (pyStrip r) = some (parseSteps repair txt).result) := by
    intro txt
    cases hj : json_loads txt with
    | some j =>
      have hps : parseSteps repair txt = ⟨j, 0⟩ := by simp [parseSteps, hj]
      rw [hps]
      exact Or.inr (Or.inl rfl)
    | none =>
      by_cases hcond : (!startsWithBrace txt && !strContains txt ("action")) = true
      · have hps : parseSteps repair txt = ⟨finalWrapJson txt, 0⟩ := by
          simp [parseSteps, hj, hcond]
        rw [hps]
        exact Or.inl rfl
      · cases he : extractFirst txt with
        | some j =>
          have hps : parseSteps repair txt = ⟨j, 0⟩ := by
            simp [parseSteps, hj, hcond, he]
          rw [hps]
          refine Or.inr (Or.inr (Or.inl ?_))
          unfold extractFirst at he
          by_cases hcnt : countBraces txt > 1
          · rw [if_pos hcnt] at he
            exact Option.bind_eq_some.mp he
          · rw [if_neg hcnt] at he
            cases he
        | none =>
          have hps : parseSteps repair txt = repairStep repair txt := by
            simp [parseSteps, hj, hcond, he]
          rw [hps]
          rcases repairStep_shape repair txt with hw | ⟨r, hr, hl⟩
          · exact Or.inl hw
          · exact Or.inr (Or.inr (Or.inr ⟨r, hr, hl⟩))
  exact main (pyStrip s)

/-- C1 counterexample: on the completion text `5` the parse succeeds at
the direct-decode step and returns the bare JSON number 5, which is not
a well-formed Action (neither a ToolCall nor a FinalAnswer shape), so
the claim that every parse result is a well-formed Action is false. -/
theorem c1_counterexample :
    (parseLLM stubRepair ("5")).result = Json.num ("5") ∧
    isWellFormedAction ((parseLLM stubRepair ("5")).result) = false :=
  ⟨rfl, rfl⟩

/-- C5: on the concatenation of two final-answer objects with answers
`A` and `B`, the parse returns the first balanced object — the decision
decoding to `FinalAnswer` with text `A` — with no repair call made. -/
theorem c5_first_object_extraction (repair : String → Except String String) :
    parseLLM repair
        ("\x7b\"action\":\"final\",\"answer\":\"A\"\x7d\x7b\"action\":\"final\",\"answer\":\"B\"\x7d") =
      ⟨finalWrapJson ("A"), 0⟩ ∧
    classify (finalWrapJson ("A")) = Decision.finalA (Json.str ("A")) :=
  ⟨rfl, rfl⟩

/-- C6 (amended): when the stripped text is not valid JSON, does not
begin with `\x7b` and does not contain the token `action`, the parse
returns the final-answer wrap of the STRIPPED text — equal to the raw
text only when the raw text carries no surrounding whitespace — and
makes no repair call. -/
theorem c6_plain_text_wrap (repair : String → Except String String) (s : String)
    (h1 : json_loads (pyStrip s) = none)
    (h2 : startsWithBrace (pyStrip s) = false)
    (h3 : strContains (pyStrip s) ("action") = false) :
    parseLLM repair s = ⟨finalWrapJson (pyStrip s), 0⟩ := by
  show parseSteps repair (pyStrip s) = ⟨finalWrapJson (pyStrip s), 0⟩
  simp [parseSteps, h1, h2, h3]

/-- C6 counterexample: the raw text ` hello ` (not JSON, no brace, no
`action` token once trimmed) is wrapped as a FinalAnswer whose text is
the stripped `hello`, not the raw ` hello `. -/
theorem c6_counterexample :
    parseLLM stubRepair (" hello ") = ⟨finalWrapJson ("hello"), 0⟩ ∧
    ("hello" : String) ≠ " hello " :=
  ⟨rfl, by decide⟩

/-- C6 witness: a concrete plain-text completion satisfying every
hypothesis of the amended theorem. -/
theorem c6_witness :
    json_loads (pyStrip ("Hello, here is your answer.")) = none ∧
    parseLLM stubRepair ("Hello, here is your answer.") =
      ⟨finalWrapJson ("Hello, here is your answer."), 0⟩ :=
  ⟨rfl, c6_plain_text_wrap stubRepair ("Hello, here is your answer.") rfl rfl rfl⟩

/-- C7: whenever the stripped completion text decodes (as one JSON value)
to the object with `action` equal to `final` and `answer` equal to the
string `x`, the parse returns exactly that object with zero repair
calls, and the loop classifies it as the FinalAnswer with text `x`. -/
theorem c7_direct_decode_fidelity (repair : String → Except String String)
    (s x : String)
    (h : json_loads (pyStrip s) = some (finalWrapJson x)) :
    parseLLM repair s = ⟨finalWrapJson x, 0⟩ ∧
    classify (finalWrapJson x) = Decision.finalA (Json.str x) := by
  constructor
  · show parseSteps repair (pyStrip s) = ⟨finalWrapJson x, 0⟩
    simp [parseSteps, h]
  · rfl

/-- C7 witness: applying direct-decode fidelity at a concrete
final-answer completion. -/
theorem c7_witness :
    json_loads (pyStrip ("\x7b\"action\":\"final\",\"answer\":\"hi\"\x7d")) =
      some (finalWrapJson ("hi")) ∧
    parseLLM stubRepair ("\x7b\"action\":\"final\",\"answer\":\"hi\"\x7d") =
      ⟨finalWrapJson ("hi"), 0⟩ :=
  ⟨rfl,
    (c7_direct_decode_fidelity stubRepair
      ("\x7b\"action\":\"final\",\"answer\":\"hi\"\x7d") ("hi") rfl).1⟩

/-- History `b` extends history `a` by appended messages only. -/
def isExtensionOf (b a : List Msg) : Prop := ∃ t, b = a ++ t

/-- Every iteration of the loop only ever appends to the history. -/
lemma agentLoop_extends (ctx : Ctx) (cat : List (String × ToolDesc)) :
    ∀ (n : Nat) (h : List Msg) (p : List String) (d : Nat),
      isExtensionOf (agentLoop ctx cat n h p d).history h := by
  intro n
  induction n with
  | zero =>
    intro h p d
    exact ⟨[], by simp [agentLoop]⟩
  | succ n ih =>
    intro h p d
    cases hs : stepOf ctx cat h with
    | halt o m pr =>
      refine ⟨m.toList, ?_⟩
      simp [agentLoop, hs]
    | cont m pr disp =>
      obtain ⟨t, ht⟩ := ih (h ++ [m]) (p ++ pr) (d + (if disp then 1 else 0))
      refine ⟨[m] ++ t, ?_⟩
      simp only [agentLoop, hs]
      rw [ht]
      simp

/-- C9: the history is append-only — after any number of loop iterations,
and after a whole `runTurn`, the history that was present beforehand is
an unchanged prefix of the history afterwards (append is the sole
mutator; nothing is deleted, reordered or edited). -/
theorem c9_history_append_only :
    (∀ (ctx : Ctx) (cat : List (String × ToolDesc)) (n : Nat) (h : List Msg)
        (p : List String) (d : Nat),
        isExtensionOf (agentLoop ctx cat n h p d).history h) ∧
    (∀ (ctx : Ctx) (cat : List (String × ToolDesc)) (h0 : List Msg) (user : String),
        isExtensionOf (runTurn ctx cat h0 user).history h0) := by
  constructor
  · exact fun ctx cat n h p d => agentLoop_extends ctx cat n h p d
  · intro ctx cat h0 user
    obtain ⟨t, ht⟩ :=
      agentLoop_extends ctx cat maxIterations (h0 ++ [⟨"user", user⟩]) [] 0
    refine ⟨⟨"user", user⟩ :: t, ?_⟩
    show (agentLoop ctx cat maxIterations (h0 ++ [⟨"user", user⟩]) [] 0).history = _
    rw [ht]
    simp

/-- C4: if the completion call raises at any iteration, the turn aborts
immediately with the completion-error outcome, the error line is printed
to the session boundary, and the history is exactly what it was before
the failed attempt — no message is appended for that iteration. -/
theorem c4_completion_failure_atomic (ctx : Ctx) (cat : List (String × ToolDesc))
    (n : Nat) (h : List Msg) (p : List String) (d : Nat) (e : String)
    (hc : ctx.completer h = Except.error e) :
    agentLoop ctx cat (n + 1) h p d =
      ⟨Outcome.completionError e, h,
        p ++ ["[ERROR] Failed to get valid JSON from LLM: " ++ e], d⟩ := by
  have hs : stepOf ctx cat h =
      StepRes.halt (Outcome.completionError e) none
        ["[ERROR] Failed to get valid JSON from LLM: " ++ e] := by
    simp [stepOf, hc]
  simp [agentLoop, hs]

/-- A toy catalog holding the single tool `ping`. -/
def wCat : List (String × ToolDesc) := tool_index [⟨"ping", "demo tool"⟩]

/-- Collaborators whose completion backend always fails. -/
def failCtx : Ctx where
  completer := fun _ => Except.error ("boom")
  repair := stubRepair
  toolExec := fun _ _ => Except.ok ("pong")

/-- C4 witness: a failing completion aborts the first iteration of a
six-iteration loop, printing the error and leaving the empty history
untouched. -/
theorem c4_witness :
    failCtx.completer [] = Except.error ("boom") ∧
    agentLoop failCtx wCat maxIterations [] [] 0 =
      ⟨Outcome.completionError ("boom"), [],
        ["[ERROR] Failed to get valid JSON from LLM: boom"], 0⟩ :=
  ⟨rfl, c4_completion_failure_atomic failCtx wCat 5 [] [] 0 ("boom") rfl⟩

/-- C8: a decision classified as a tool call whose (string) name is
absent from the catalog makes the loop append the
`(unknown tool <name>)` assistant message, print the error line, and
continue with the next iteration — the turn is not aborted and the
dispatch is not counted. -/
theorem c8_unknown_tool_recovery (ctx : Ctx) (cat : List (String × ToolDesc))
    (n : Nat) (h : List Msg) (p : List String) (d : Nat)
    (raw s : String) (args : Json)
    (hc : ctx.completer h = Except.ok raw)
    (hcl : classify (parseLLM ctx.repair raw).result = Decision.toolA (Json.str s) args)
    (hmiss : dictGet? cat s = none) :
    agentLoop ctx cat (n + 1) h p d =
      agentLoop ctx cat n (h ++ [⟨"assistant", "(unknown tool " ++ s ++ ")"⟩])
        (p ++ ["[ERROR] Unknown tool: " ++ s]) d := by
  have hs : stepOf ctx cat h =
      StepRes.cont ⟨"assistant", "(unknown tool " ++ s ++ ")"⟩
        ["[ERROR] Unknown tool: " ++ s] false := by
    simp [stepOf, hc, hcl, hmiss]
  simp [agentLoop, hs]

/-- A completion that always proposes the tool `nope`, which is not in
the toy catalog. -/
def unknownRaw : String := "\x7b\"action\":\"nope\",\"args\":\x7b\x7d\x7d"

/-- Collaborators whose completion always names an unknown tool. -/
def unkCtx : Ctx where
  completer := fun _ => Except.ok unknownRaw
  repair := stubRepair
  toolExec := fun _ _ => Except.ok ("pong")

/-- C8 witness: the unknown tool `nope` is recorded in history and the
loop moves on to its next iteration. -/
theorem c8_witness :
    classify (parseLLM unkCtx.repair unknownRaw).result =
      Decision.toolA (Json.str ("nope")) (Json.obj []) ∧
    dictGet? wCat ("nope") = none ∧
    agentLoop unkCtx wCat 1 [] [] 0 =
      agentLoop unkCtx wCat 0 [⟨"assistant", "(unknown tool nope)"⟩]
        ["[ERROR] Unknown tool: nope"] 0 :=
  ⟨rfl, rfl,
    c8_unknown_tool_recovery unkCtx wCat 0 [] [] 0 unknownRaw ("nope")
      (Json.obj []) rfl rfl rfl⟩

/-- C10: when the decoded decision is an object whose `action` is
`final` but which has no `answer` key, the loop treats the answer as
the empty string: it prints the bare agent line, appends an assistant
message with empty content, and ends the turn with the empty string as
the final answer. -/
theorem c10_missing_answer_empty (ctx : Ctx) (cat : List (String × ToolDesc))
    (n : Nat) (h : List Msg) (p : List String) (d : Nat)
    (raw : String) (kvs : List (String × Json))
    (hc : ctx.completer h = Except.ok raw)
    (hres : (parseLLM ctx.repair raw).result = Json.obj kvs)
    (hact : dictGet? kvs ("action") = some (Json.str ("final")))
    (hans : dictGet? kvs ("answer") = none) :
    agentLoop ctx cat (n + 1) h p d =
      ⟨Outcome.finalAnswer "", h ++ [⟨"assistant", ""⟩], p ++ ["Agent: "], d⟩ := by
  have hcl : classify (parseLLM ctx.repair raw).result =
      Decision.finalA (Json.str ("")) := by
    rw [hres]
    simp [classify, pyGet, pyGetD, isFinalTag, hact, hans]
  have hs : stepOf ctx cat h =
      StepRes.halt (Outcome.finalAnswer "") (some ⟨"assistant", ""⟩) ["Agent: "] := by
    simp [stepOf, hc, hcl, pyStr]
  simp [agentLoop, hs]

/-- A completion that returns a final action with no answer field. -/
def finalOnlyRaw : String := "\x7b\"action\":\"final\"\x7d"

/-- Collaborators whose completion always returns `final` with no
`answer` key. -/
def finCtx : Ctx where
  completer := fun _ => Except.ok finalOnlyRaw
  repair := stubRepair
  toolExec := fun _ _ => Except.ok ("pong")

/-- C10 witness: the missing `answer` key yields the empty final answer
and an empty-content assistant message. -/
theorem c10_witness :
    (parseLLM finCtx.repair finalOnlyRaw).result =
      Json.obj [("action", Json.str ("final"))] ∧
    agentLoop finCtx wCat 1 [] [] 0 =
      ⟨Outcome.finalAnswer "", [⟨"assistant", ""⟩], ["Agent: "], 0⟩ :=
  ⟨rfl,
    c10_missing_answer_empty finCtx wCat 0 [] [] 0 finalOnlyRaw
      [("action", Json.str ("final"))] rfl rfl rfl rfl⟩

/-- A message recording a successful tool dispatch. -/
def isToolResultMsg (m : Msg) : Prop :=
  m.role = "assistant" ∧ ∃ s payload, m.content = "[tool:" ++ s ++ "] " ++ payload

/-- The completer stub hypothesis of the budget-termination property:
every completion decodes and classifies to a tool call on a tool present
in the catalog, and that tool call succeeds. -/
def alwaysValidToolCall (ctx : Ctx) (cat : List (String × ToolDesc)) : Prop :=
  ∀ h : List Msg, ∃ raw s args payload,
    ctx.completer h = Except.ok raw ∧
    classify (parseLLM ctx.repair raw).result = Decision.toolA (Json.str s) args ∧
    (dictGet? cat s).isSome = true ∧
    ctx.toolExec s args = Except.ok payload

/-- Under `alwaysValidToolCall`, `n` remaining iterations perform exactly
`n` dispatches, append exactly `n` tool-result messages, print nothing,
and end exhausted. -/
lemma c3_loop (ctx : Ctx) (cat : List (String × ToolDesc))
    (H : alwaysValidToolCall ctx cat) :
    ∀ (n : Nat) (h : List Msg) (p : List String) (d : Nat),
      ∃ msgs, agentLoop ctx cat n h p d = ⟨Outcome.exhausted, h ++ msgs, p, d + n⟩ ∧
        msgs.length = n ∧ ∀ m ∈ msgs, isToolResultMsg m := by
  intro n
  induction n with
  | zero =>
    intro h p d
    refine ⟨[], by simp [agentLoop], rfl, ?_⟩
    intro m hm
    cases hm
  | succ n ih =>
    intro h p d
    obtain ⟨raw, s, args, payload, hc, hcl, hsome, hex⟩ := H h
    obtain ⟨t, ht⟩ := Option.isSome_iff_exists.mp hsome
    have hs : stepOf ctx cat h =
        StepRes.cont ⟨"assistant", "[tool:" ++ s ++ "] " ++ payload⟩ [] true := by
      simp [stepOf, hc, hcl, ht, hex]
    obtain ⟨msgs, heq, hlen, hshape⟩ :=
      ih (h ++ [⟨"assistant", "[tool:" ++ s ++ "] " ++ payload⟩]) p (d + 1)
    refine ⟨⟨"assistant", "[tool:" ++ s ++ "] " ++ payload⟩ :: msgs, ?_, by simp [hlen], ?_⟩
    · have harith : d + 1 + n = d + (n + 1) := by omega
      simp only [agentLoop, hs, List.append_nil, if_true]
      rw [heq, harith]
      simp
    · intro m hm
      rcases List.mem_cons.mp hm with hm | hm
      · subst hm
        exact ⟨rfl, s, payload, rfl⟩
      · exact hshape m hm

/-- C3: with a completer that always produces a valid, successful tool
call, a turn performs exactly `maxIterations` dispatch attempts, ends
with the distinct exhausted-budget outcome (no FinalAnswer appended, no
agent line printed), and its history is exactly the initial user message
followed by `maxIterations` tool-result messages. -/
theorem c3_budget_exhaustion (ctx : Ctx) (cat : List (String × ToolDesc))
    (H : alwaysValidToolCall ctx cat) (h0 : List Msg) (user : String) :
    ∃ msgs, runTurn ctx cat h0 user =
        ⟨Outcome.exhausted, (h0 ++ [⟨"user", user⟩]) ++ msgs, [], maxIterations⟩ ∧
      msgs.length = maxIterations ∧ ∀ m ∈ msgs, isToolResultMsg m := by
  obtain ⟨msgs, heq, hlen, hshape⟩ :=
    c3_loop ctx cat H maxIterations (h0 ++ [⟨"user", user⟩]) [] 0
  refine ⟨msgs, ?_, hlen, hshape⟩
  show agentLoop ctx cat maxIterations (h0 ++ [⟨"user", user⟩]) [] 0 = _
  rw [heq]
  simp

/-- A completion that always proposes the valid tool `ping`. -/
def toolRaw : String := "\x7b\"action\":\"ping\",\"args\":\x7b\x7d\x7d"

/-- Collaborators whose completion always calls `ping`, which succeeds. -/
def toolCtx : Ctx where
  completer := fun _ => Except.ok toolRaw
  repair := stubRepair
  toolExec := fun _ _ => Except.ok ("pong")

/-- C3 witness: the always-tool-call stub exhausts the budget after
exactly `maxIterations` dispatches on a concrete turn. -/
theorem c3_witness :
    alwaysValidToolCall toolCtx wCat ∧
    ∃ msgs, runTurn toolCtx wCat [] "hi" =
        ⟨Outcome.exhausted, [⟨"user", "hi"⟩] ++ msgs, [], maxIterations⟩ ∧
      msgs.length = maxIterations ∧ ∀ m ∈ msgs, isToolResultMsg m := by
  have H : alwaysValidToolCall toolCtx wCat := by
    intro h
    exact ⟨toolRaw, "ping", Json.obj [], "pong", rfl, rfl, rfl, rfl⟩
  exact ⟨H, c3_budget_exhaustion toolCtx wCat H [] "hi"⟩
